import Mathlib

/-!
Verification development for the Ginkgo configuration-parsing engine and two
device kernels (batch stopping criteria, FBCSR block transpose).

The configuration engine itself (`pnode`, `registry`, `type_descriptor`,
`parse`, `get_value`) is exercised by the test suite in
`core/test/config/config.cpp`; its implementation is modelled here from the
specification (each such definition carries a `Modelled from the spec:` doc
comment).  The stopping criteria (`SimpleRelResidual`, `SimpleAbsResidual`)
and the `transpose_blocks` kernel are embedded directly from their sources.
-/

namespace GkoConfig

/-- Error taxonomy of the engine (spec section 7).  The extra
`fuelExhausted` constructor is a modelling artifact used only to make the
recursive parse a total function; the real recursion always terminates on
the finite input tree, and no theorem below depends on this constructor. -/
inductive PError where
  | MissingFieldError
  | NotFoundError
  | OutOfRangeError
  | TypeMismatchError
  | UnknownTypeError
  | UnsupportedTypeCombinationError
  | DuplicateNameError
  | fuelExhausted
deriving DecidableEq, Repr

/-- Modelled from the spec: the property node `pnode` (spec section 3), a
tagged union with variants empty, boolean, integer (widest signed integer,
modelled as `Int`), real (double precision, modelled as `ℚ`), string, array,
and insertion-ordered string-keyed map. -/
inductive pnode where
  | empty : pnode
  | boolean : Bool → pnode
  | integer : Int → pnode
  | real : ℚ → pnode
  | string : String → pnode
  | array : List pnode → pnode
  | map : List (String × pnode) → pnode

/-- Association lookup in an insertion-ordered key/value list (first match
wins; the map invariant keeps keys unique). -/
def assoc_lookup {γ : Type} : List (String × γ) → String → Option γ
  | [], _ => none
  | (k, v) :: rest, key => if k = key then some v else assoc_lookup rest key

/-- Modelled from the spec: sub-node lookup by key on a map node; non-map
nodes have no keyed children. -/
def pnode.get (n : pnode) (key : String) : Option pnode :=
  match n with
  | .map es => assoc_lookup es key
  | _ => none

/-- Modelled from the spec: `get_value<T>` for an integer target type with
range `[lo, hi]`.  An integer leaf converts losslessly when in range and
with two's-complement wraparound narrowing otherwise; non-integer leaves
fail with `TypeMismatchError`. -/
def get_value_integer (lo hi : Int) (n : pnode) : Except PError Int :=
  match n with
  | .integer i => .ok ((i - lo).emod (hi - lo + 1) + lo)
  | _ => .error .TypeMismatchError

/-- Modelled from the spec: `get_value<int>` (32-bit signed). -/
def get_value_int : pnode → Except PError Int :=
  get_value_integer (-(2 ^ 31)) (2 ^ 31 - 1)

/-- Modelled from the spec: `get_value<long>` (64-bit signed). -/
def get_value_long : pnode → Except PError Int :=
  get_value_integer (-(2 ^ 63)) (2 ^ 63 - 1)

/-- Modelled from the spec: `get_value<unsigned>` (32-bit unsigned). -/
def get_value_unsigned : pnode → Except PError Int :=
  get_value_integer 0 (2 ^ 32 - 1)

/-- Modelled from the spec: `get_value<long long>` (64-bit signed). -/
def get_value_long_long : pnode → Except PError Int :=
  get_value_integer (-(2 ^ 63)) (2 ^ 63 - 1)

/-- Modelled from the spec: `get_value<double>`.  A real or integer leaf
yields its value (reals are modelled as rationals); other nodes fail with
`TypeMismatchError`. -/
def get_value_double (n : pnode) : Except PError ℚ :=
  match n with
  | .real r => .ok r
  | .integer i => .ok (i : ℚ)
  | _ => .error .TypeMismatchError

/-- Modelled from the spec: `get_value<float>`.  Same extraction as
`get_value_double`; the narrower rounding of `float` is not modelled, and
the claims about it only concern exactly representable values. -/
def get_value_float (n : pnode) : Except PError ℚ :=
  match n with
  | .real r => .ok r
  | .integer i => .ok (i : ℚ)
  | _ => .error .TypeMismatchError

/-- A scalar leaf read as a real number, used by the complex extraction. -/
def leaf_real (n : pnode) : Except PError ℚ :=
  match n with
  | .real r => .ok r
  | .integer i => .ok (i : ℚ)
  | _ => .error .TypeMismatchError

/-- Modelled from the spec: `get_value<std::complex<T>>` for `T` float or
double (both share this model; components are rationals).  A single scalar
leaf supplies the real part with zero imaginary part; a two-element array
supplies `[real, imag]`; every other shape fails with
`TypeMismatchError`. -/
def get_value_complex (n : pnode) : Except PError (ℚ × ℚ) :=
  match n with
  | .real r => .ok (r, 0)
  | .integer i => .ok ((i : ℚ), 0)
  | .array [a, b] =>
    match leaf_real a, leaf_real b with
    | .ok ra, .ok rb => .ok (ra, rb)
    | .error e, _ => .error e
    | _, .error e => .error e
  | _ => .error .TypeMismatchError

/-- Modelled from the spec: the type descriptor, a pair of strings naming
the value type and index type a generic object is instantiated with. -/
structure type_descriptor where
  value_type : String
  index_type : String
deriving DecidableEq, Repr

/-- Modelled from the spec: the fixed vocabulary of value-type names
(numeric precision and complex tags, as used by the tests). -/
def value_type_names : List String :=
  ["double", "float", "complex<double>", "complex<float>"]

/-- Modelled from the spec: the fixed vocabulary of index-type names
(integer width tags, plus "void" for kinds that use no index type, as
exercised by the tests). -/
def index_type_names : List String :=
  ["int32", "int64", "void"]

/-- Modelled from the spec: resolution of one type field of the descriptor:
read the string field `key` from the node if present, validated against the
fixed vocabulary (else `UnknownTypeError`, also for a present field of
non-string shape), else inherit the parent's value. -/
def resolve_type_field (node : pnode) (key : String) (vocab : List String)
    (inherited : String) : Except PError String :=
  match node.get key with
  | some (.string s) =>
    if s ∈ vocab then .ok s else .error .UnknownTypeError
  | some _ => .error .UnknownTypeError
  | none => .ok inherited

/-- Modelled from the spec: type-descriptor resolution (spec section 4.3,
`update_type`): read the "ValueType"/"IndexType" string fields from the node
if present (validated against the fixed vocabulary, else
`UnknownTypeError`), else inherit the parent descriptor's corresponding
field. -/
def update_type (node : pnode) (ptd : type_descriptor) :
    Except PError type_descriptor :=
  match resolve_type_field node "ValueType" value_type_names
      ptd.value_type with
  | .error e => .error e
  | .ok vt =>
    match resolve_type_field node "IndexType" index_type_names
        ptd.index_type with
    | .error e => .error e
    | .ok it => .ok ⟨vt, it⟩

/-- Modelled from the spec: a constructed object held by the registry,
type-erased down to the name of the polymorphic interface it can be cast to
and an identity. -/
structure robject where
  concrete_type : String
  oid : Nat
deriving DecidableEq, Repr

/-- Modelled from the spec: the registry, a table with two independent
namespaces: name to constructed object and name to custom builder function.
The builder entries are kept abstract (type `β`) and interpreted by an
application function supplied to `parse`, so that the registry type stays
well-founded. -/
structure registry (β : Type) where
  objects : List (String × robject)
  builders : List (String × β)

/-- Modelled from the spec: the shape of one parameter in a built-in type's
statically-declared schema: a scalar/array value, or a nested constructible
object (carrying the name of the child kind used when recursing and the
type-erased interface name expected of a named back-reference). -/
inductive pshape where
  | scalar : pshape
  | nested_obj : String → String → pshape

/-- Modelled from the spec: one entry of a built-in type's parameter
schema. -/
structure param_spec where
  pname : String
  required : Bool
  shape : pshape

/-- Modelled from the spec: one built-in constructible type of a kind: its
"Type" name, the set of supported value/index type combinations, and its
parameter schema. -/
structure builtin_entry where
  bname : String
  supported : List type_descriptor
  params : List param_spec

/-- Modelled from the spec: a constructible-kind tag: an optional single
fixed concrete type name (present when the kind denotes one concrete type)
and the closed set of built-in types of the kind. -/
structure kind_info where
  fixed : Option String
  builtins : List builtin_entry

/-- Look a "Type" name up in the closed set of built-ins of a kind. -/
def find_builtin : List builtin_entry → String → Option builtin_entry
  | [], _ => none
  | b :: rest, t => if b.bname = t then some b else find_builtin rest t

/-- Modelled from the spec: step 3 of the parse algorithm: if the kind tag
denotes a single fixed concrete type, use it directly; otherwise require the
node to contain a "Type" string field — absence is `MissingFieldError`. -/
def choose_type_name (kind : kind_info) (node : pnode) :
    Except PError String :=
  match kind.fixed with
  | some n => .ok n
  | none =>
    match node.get "Type" with
    | some (.string s) => .ok s
    | _ => .error .MissingFieldError

/-- Modelled from the spec: the type-erased configured builder value
returned by a parse (spec step 6): a scalar parameter value, a resolved
named back-reference, or a built object with its concrete type name, its
resolved type descriptor, and its set parameters. -/
inductive ConfigVal where
  | scalar : pnode → ConfigVal
  | ref : robject → ConfigVal
  | obj : String → type_descriptor → List (String × ConfigVal) → ConfigVal

/-- Modelled from the spec: handling of one parameter value present in the
node (spec step 5).  A scalar-shaped parameter keeps the leaf; a
nested-object parameter given a string resolves it in the registry's
constructed-object namespace (absent name is `NotFoundError`, an object of
the wrong type-erased type is `TypeMismatchError`); a nested-object
parameter given a map recurses through `parse_fn` with the child kind looked
up in the kind table; any other shape is `TypeMismatchError`.  Registry
state is threaded explicitly to make its preservation provable. -/
def parse_param_value {β : Type}
    (parse_fn : kind_info → pnode → registry β → type_descriptor →
      Except PError (ConfigVal × registry β))
    (table : List (String × kind_info)) (shape : pshape) (sub : pnode)
    (reg : registry β) (td : type_descriptor) :
    Except PError (ConfigVal × registry β) :=
  match shape with
  | .scalar => .ok (.scalar sub, reg)
  | .nested_obj child_kind expected =>
    match sub with
    | .string name =>
      match assoc_lookup reg.objects name with
      | none => .error .NotFoundError
      | some o =>
        if o.concrete_type = expected then .ok (.ref o, reg)
        else .error .TypeMismatchError
    | .map es =>
      match assoc_lookup table child_kind with
      | none => .error .UnknownTypeError
      | some ck => parse_fn ck (.map es) reg td
    | _ => .error .TypeMismatchError

/-- Modelled from the spec: iteration over a built-in type's parameter
schema (spec step 5): a parameter absent from the node is skipped when
optional and fails with `MissingFieldError` when required; a present one is
handled by `parse_param_value`. -/
def parse_params {β : Type}
    (parse_fn : kind_info → pnode → registry β → type_descriptor →
      Except PError (ConfigVal × registry β))
    (table : List (String × kind_info)) :
    List param_spec → pnode → registry β → type_descriptor →
      Except PError (List (String × ConfigVal) × registry β)
  | [], _, reg, _ => .ok ([], reg)
  | p :: rest, node, reg, td =>
    match node.get p.pname with
    | none =>
      if p.required then .error .MissingFieldError
      else parse_params parse_fn table rest node reg td
    | some sub =>
      match parse_param_value parse_fn table p.shape sub reg td with
      | .error e => .error e
      | .ok (v, reg₂) =>
        match parse_params parse_fn table rest node reg₂ td with
        | .error e => .error e
        | .ok (vs, reg₃) => .ok ((p.pname, v) :: vs, reg₃)

/-- Modelled from the spec: the dispatch/parse engine (spec section 4.4).
Step 2 resolves the effective type descriptor; step 3 determines the
concrete type name; step 4 dispatches to a built-in (checking the supported
value/index type combinations) or, failing that, to a registered custom
builder invoked with the node, the registry and the effective descriptor and
whose result is used directly, and fails with `UnknownTypeError` when the
name is in neither; step 5 parses the built-in's declared parameters; step 6
returns the configured type-erased builder.  `app` interprets the abstract
custom-builder entries; `fuel` bounds the recursion depth (a modelling
artifact: the real recursion is bounded by the finite tree). -/
def parse {β : Type}
    (app : β → pnode → registry β → type_descriptor →
      Except PError ConfigVal)
    (table : List (String × kind_info)) :
    Nat → kind_info → pnode → registry β → type_descriptor →
      Except PError (ConfigVal × registry β)
  | 0, _, _, _, _ => .error .fuelExhausted
  | fuel + 1, kind, node, reg, ptd =>
    match update_type node ptd with
    | .error e => .error e
    | .ok td =>
      match choose_type_name kind node with
      | .error e => .error e
      | .ok tname =>
        match find_builtin kind.builtins tname with
        | some b =>
          if td ∈ b.supported then
            match parse_params (parse app table fuel) table b.params node
                reg td with
            | .error e => .error e
            | .ok (ps, reg₂) => .ok (.obj b.bname td ps, reg₂)
          else .error .UnsupportedTypeCombinationError
        | none =>
          match assoc_lookup reg.builders tname with
          | some cb =>
            match app cb node reg td with
            | .error e => .error e
            | .ok c => .ok (c, reg)
          | none => .error .UnknownTypeError

/-- The stopping-criterion node of the test fixture:
`{"Type": "Iteration", "max_iters": 1}`. -/
def stop_config : pnode :=
  .map [("Type", .string "Iteration"), ("max_iters", .integer 1)]

/-- Sample built-in: the `Iteration` stopping criterion with its
`max_iters` scalar parameter. -/
def iteration_builtin : builtin_entry :=
  ⟨"Iteration",
   [⟨"double", "void"⟩, ⟨"float", "void"⟩, ⟨"double", "int32"⟩,
    ⟨"float", "int32"⟩],
   [⟨"max_iters", false, .scalar⟩]⟩

/-- Sample kind: the abstract stopping-criterion factory kind. -/
def stop_kind : kind_info := ⟨none, [iteration_builtin]⟩

/-- Sample built-in: the `solver::Cg` factory with its required nested
`criteria` parameter and optional `preconditioner` (nested factory) and
`generated_preconditioner` (named back-reference to a constructed
`LinOp`). -/
def cg_builtin : builtin_entry :=
  ⟨"solver::Cg",
   [⟨"double", "void"⟩, ⟨"float", "void"⟩, ⟨"double", "int32"⟩,
    ⟨"float", "int32"⟩],
   [⟨"criteria", true, .nested_obj "stop" "CriterionFactory"⟩,
    ⟨"preconditioner", false, .nested_obj "linop" "LinOp"⟩,
    ⟨"generated_preconditioner", false, .nested_obj "linop" "LinOp"⟩]⟩

/-- Sample kind: the abstract linear-operator factory kind. -/
def linop_kind : kind_info := ⟨none, [cg_builtin]⟩

/-- Sample kind: `LinOpFactoryType::Cg`, a kind tag denoting the single
fixed concrete type `solver::Cg`. -/
def cg_kind : kind_info := ⟨some "solver::Cg", [cg_builtin]⟩

/-- Sample kind table binding the child-kind names used by the schemas. -/
def sample_table : List (String × kind_info) :=
  [("stop", stop_kind), ("linop", linop_kind)]

/-- Sample custom-builder interpretation for the `Unit` builder type: every
registered custom builder produces an already-configured `solver::Bicg`
builder, as in the custom-build test. -/
def sample_app : Unit → pnode → registry Unit → type_descriptor →
    Except PError ConfigVal :=
  fun _ _ _ _ => .ok (.obj "solver::Bicg" ⟨"double", "void"⟩ [])

/-- The registry of the `GenerateObjectWithData` test: the constructed
matrix registered under "precond", erased to the `LinOp` interface. -/
def data_reg : registry Unit := ⟨[("precond", ⟨"LinOp", 0⟩)], []⟩

/-- The node of the `GenerateObjectWithData` test:
`{"generated_preconditioner": "precond", "criteria": stop_config}`. -/
def data_node : pnode :=
  .map [("generated_preconditioner", .string "precond"),
        ("criteria", stop_config)]

/-- The node of the `GenerateObjectWithoutDefault` test:
`{"ValueType": "double", "criteria": stop_config}`. -/
def nodefault_node : pnode :=
  .map [("ValueType", .string "double"), ("criteria", stop_config)]

/-- The preconditioner sub-node of the `GenerateObjectWithCustomBuild`
test: `{"Type": "Custom"}`. -/
def custom_node : pnode := .map [("Type", .string "Custom")]

/-- The registry of the `GenerateObjectWithCustomBuild` test: one custom
builder registered under the name "Custom". -/
def custom_reg : registry Unit := ⟨[], [("Custom", ())]⟩

/-- An empty registry. -/
def empty_reg : registry Unit := ⟨[], []⟩

/-- The configured builder produced for `data_node` under parent descriptor
("float", "void"). -/
def data_result : ConfigVal :=
  .obj "solver::Cg" ⟨"float", "void"⟩
    [("criteria", .obj "Iteration" ⟨"float", "void"⟩
        [("max_iters", .scalar (.integer 1))]),
     ("generated_preconditioner", .ref ⟨"LinOp", 0⟩)]

/-- The configured builder produced for `nodefault_node` (node-level
"ValueType" override to "double"). -/
def nodefault_result : ConfigVal :=
  .obj "solver::Cg" ⟨"double", "void"⟩
    [("criteria", .obj "Iteration" ⟨"double", "void"⟩
        [("max_iters", .scalar (.integer 1))])]

/-- The configured builder produced for `stop_config` under a given
effective descriptor. -/
def stop_result (td : type_descriptor) : ConfigVal :=
  .obj "Iteration" td [("max_iters", .scalar (.integer 1))]

/-- The configured builder a custom builder returns in `sample_app`. -/
def custom_result : ConfigVal := .obj "solver::Bicg" ⟨"double", "void"⟩ []

/-- A registry holding an object of a different erased type under
"precond", for the type-mismatch case. -/
def wrong_reg : registry Unit := ⟨[("precond", ⟨"Matrix", 1⟩)], []⟩

end GkoConfig

namespace GkoBatchStop

/-- Relative-residual batch stopping criterion, embedded from
`SimpleRelResidual` in the CUDA/HIP batch criteria header: it stores the
relative tolerance and a pointer to the right-hand-side norms (modelled as a
function from indices). -/
structure SimpleRelResidual where
  rel_tol : ℚ
  rhs_norms : Nat → ℚ

/-- `SimpleRelResidual::check_converged`: true iff
`residual_norms[0] <= rel_tol * rhs_norms[0]`. -/
def SimpleRelResidual.check_converged (s : SimpleRelResidual)
    (residual_norms : Nat → ℚ) : Bool :=
  decide (residual_norms 0 ≤ s.rel_tol * s.rhs_norms 0)

/-- Absolute-residual batch stopping criterion, embedded from
`SimpleAbsResidual`: only the absolute tolerance is stored. -/
structure SimpleAbsResidual where
  abs_tol : ℚ

/-- The two-argument constructor of `SimpleAbsResidual`: its second
(right-hand-side norms) argument is discarded, as in the source. -/
def SimpleAbsResidual.ofArgs (tol : ℚ) (_rhs_norms : Nat → ℚ) :
    SimpleAbsResidual :=
  ⟨tol⟩

/-- `SimpleAbsResidual::check_converged`: true iff
`residual_norms[0] <= abs_tol`. -/
def SimpleAbsResidual.check_converged (s : SimpleAbsResidual)
    (residual_norms : Nat → ℚ) : Bool :=
  decide (residual_norms 0 ≤ s.abs_tol)

end GkoBatchStop

namespace GkoFbcsr

/-- The destination offset of the entry at offset `p` inside one
`mat_blk_sz * mat_blk_sz` block of the `transpose_blocks` kernel:
`orig_row = p % mat_blk_sz`, `orig_col = p / mat_blk_sz`,
`new_pos = orig_row * mat_blk_sz + orig_col`. -/
def write_pos (bs p : Nat) : Nat :=
  (p % bs) * bs + p / bs

/-- The effect of one subwarp of the `transpose_blocks` kernel on block
`ibz`: the first inner loop snapshots the block's entries into the
`orig_vals` registers (across the subwarp the snapshot covers offsets
`0 ≤ p < mat_blk_sz * mat_blk_sz`), the subwarp sync orders all reads before
all writes, and the second loop writes the snapshot of offset `p` to offset
`write_pos bs p`.  The value array is modelled as a function from indices;
the write loop is the fold of the single-entry writes, each reading only the
snapshot taken from the original array. -/
def transpose_block {α : Type} (bs ibz : Nat) (vals : Nat → α) : Nat → α :=
  (List.range (bs * bs)).foldl
    (fun acc p =>
      Function.update acc (ibz * (bs * bs) + write_pos bs p)
        (vals (ibz * (bs * bs) + p)))
    vals

/-- The `transpose_blocks` kernel: the grid-stride loop
`for (ibz = begin_blk; ibz < nbnz; ibz += total_subwarp_count)` assigns each
block index `0 ≤ ibz < nbnz` to exactly one subwarp, so distinct blocks
touch disjoint index ranges and the kernel's effect is the composition of
the per-block transposes. -/
def transpose_blocks {α : Type} (bs nbnz : Nat) (vals : Nat → α) :
    Nat → α :=
  (List.range nbnz).foldl (fun acc ibz => transpose_block bs ibz acc) vals

theorem foldl_update_of_not_mem {α : Type} (f : Nat → Nat) (g : Nat → α) :
    ∀ (l : List Nat) (v : Nat → α) (k : Nat), (∀ p ∈ l, f p ≠ k) →
      (l.foldl (fun acc p => Function.update acc (f p) (g p)) v) k = v k := by
  intro l
  induction l with
  | nil => intro v k _; rfl
  | cons a l ih =>
    intro v k h
    have ha : f a ≠ k := h a (List.mem_cons_self a l)
    have hrest : ∀ p ∈ l, f p ≠ k := fun p hp => h p (List.mem_cons_of_mem a hp)
    simp only [List.foldl_cons]
    rw [ih _ k hrest, Function.update_noteq (Ne.symm ha)]

theorem foldl_update_of_mem {α : Type} (f : Nat → Nat) (g : Nat → α) :
    ∀ (l : List Nat) (v : Nat → α) (p : Nat), p ∈ l →
      (∀ q ∈ l, f q = f p → q = p) →
      (l.foldl (fun acc p => Function.update acc (f p) (g p)) v) (f p)
        = g p := by
  intro l
  induction l with
  | nil => intro v p hp; cases hp
  | cons a l ih =>
    intro v p hp hinj
    simp only [List.foldl_cons]
    by_cases hmem : p ∈ l
    · exact ih _ p hmem fun q hq => hinj q (List.mem_cons_of_mem a hq)
    · have hpa : p = a := by
        rcases List.mem_cons.mp hp with h | h
        · exact h
        · exact absurd h hmem
      have hrest : ∀ q ∈ l, f q ≠ f p := by
        intro q hq hfq
        exact hmem (hinj q (List.mem_cons_of_mem a hq) hfq ▸ hq)
      rw [foldl_update_of_not_mem f g l _ (f p) hrest, hpa,
        Function.update_same]

theorem write_pos_lt (bs q : Nat) (hq : q < bs * bs) :
    write_pos bs q < bs * bs := by
  have hbs : 0 < bs := by
    rcases Nat.eq_zero_or_pos bs with h | h
    · subst h; simp at hq
    · exact h
  have h1 : q % bs < bs := Nat.mod_lt _ hbs
  have h2 : q / bs < bs := (Nat.div_lt_iff_lt_mul hbs).mpr hq
  calc (q % bs) * bs + q / bs < (q % bs) * bs + bs := by omega
    _ = (q % bs + 1) * bs := by ring
    _ ≤ bs * bs := Nat.mul_le_mul_right bs h1

theorem write_pos_write_pos (bs q : Nat) (hq : q < bs * bs) :
    write_pos bs (write_pos bs q) = q := by
  have hbs : 0 < bs := by
    rcases Nat.eq_zero_or_pos bs with h | h
    · subst h; simp at hq
    · exact h
  have h2 : q / bs < bs := (Nat.div_lt_iff_lt_mul hbs).mpr hq
  have hmod : write_pos bs q % bs = q / bs := by
    unfold write_pos
    rw [Nat.mul_comm (q % bs) bs, Nat.mul_add_mod, Nat.mod_eq_of_lt h2]
  have hdiv : write_pos bs q / bs = q % bs := by
    unfold write_pos
    rw [Nat.mul_comm (q % bs) bs, Nat.mul_add_div hbs,
      Nat.div_eq_of_lt h2, Nat.add_zero]
  have houter : write_pos bs (write_pos bs q)
      = (write_pos bs q % bs) * bs + write_pos bs q / bs := rfl
  rw [houter, hmod, hdiv, Nat.mul_comm, Nat.div_add_mod]

theorem write_pos_inj (bs q₁ q₂ : Nat) (h₁ : q₁ < bs * bs)
    (h₂ : q₂ < bs * bs) (h : write_pos bs q₁ = write_pos bs q₂) :
    q₁ = q₂ := by
  have := congrArg (write_pos bs) h
  rwa [write_pos_write_pos bs q₁ h₁, write_pos_write_pos bs q₂ h₂] at this

/-- Pointwise characterization of one block transpose: inside block `ibz`
the entry at offset `q` is replaced by the entry at offset `write_pos bs q`;
outside the block nothing changes. -/
theorem transpose_block_eval {α : Type} (bs ibz : Nat) (vals : Nat → α)
    (k : Nat) :
    transpose_block bs ibz vals k =
      if ibz * (bs * bs) ≤ k ∧ k < ibz * (bs * bs) + bs * bs then
        vals (ibz * (bs * bs) + write_pos bs (k - ibz * (bs * bs)))
      else vals k := by
  unfold transpose_block
  split
  · rename_i hin
    obtain ⟨hlo, hhi⟩ := hin
    set q := k - ibz * (bs * bs) with hq_def
    have hq : q < bs * bs := by omega
    have hk : k = ibz * (bs * bs) + write_pos bs (write_pos bs q) := by
      rw [write_pos_write_pos bs q hq]; omega
    rw [hk]
    exact foldl_update_of_mem
      (fun p => ibz * (bs * bs) + write_pos bs p)
      (fun p => vals (ibz * (bs * bs) + p))
      (List.range (bs * bs)) vals (write_pos bs q)
      (List.mem_range.mpr (write_pos_lt bs q hq))
      (fun p hp heq => by
        have heq' : ibz * (bs * bs) + write_pos bs p
            = ibz * (bs * bs) + write_pos bs (write_pos bs q) := heq
        exact write_pos_inj bs p (write_pos bs q)
          (List.mem_range.mp hp) (write_pos_lt bs q hq)
          (Nat.add_left_cancel heq'))
  · rename_i hout
    exact foldl_update_of_not_mem
      (fun p => ibz * (bs * bs) + write_pos bs p)
      (fun p => vals (ibz * (bs * bs) + p))
      (List.range (bs * bs)) vals k
      (fun p hp => by
        have hlt := write_pos_lt bs p (List.mem_range.mp hp)
        intro hk
        have hk' : ibz * (bs * bs) + write_pos bs p = k := hk
        exact hout (by omega))

/-- Pointwise characterization of the whole kernel: inside the first `nbnz`
blocks each entry is replaced by its transposed partner; everything past
them is untouched. -/
theorem transpose_blocks_eval {α : Type} (bs nbnz : Nat) (vals : Nat → α)
    (k : Nat) :
    transpose_blocks bs nbnz vals k =
      if k < nbnz * (bs * bs) then
        vals (k / (bs * bs) * (bs * bs) + write_pos bs (k % (bs * bs)))
      else vals k := by
  induction nbnz generalizing k with
  | zero => simp [transpose_blocks]
  | succ n ih =>
    have hstep : transpose_blocks bs (n + 1) vals =
        transpose_block bs n (transpose_blocks bs n vals) := by
      unfold transpose_blocks
      rw [List.range_succ, List.foldl_append, List.foldl_cons,
        List.foldl_nil]
    have hmul : (n + 1) * (bs * bs) = n * (bs * bs) + bs * bs := by ring
    rw [hstep, transpose_block_eval]
    split
    · rename_i hin
      obtain ⟨hlo, hhi⟩ := hin
      have hbs2 : 0 < bs * bs := by omega
      have hq : k - n * (bs * bs) < bs * bs := by omega
      have hwp : write_pos bs (k - n * (bs * bs)) < bs * bs :=
        write_pos_lt bs _ hq
      rw [ih]
      have hksplit : k = bs * bs * n + (k - n * (bs * bs)) := by
        have : bs * bs * n = n * (bs * bs) := Nat.mul_comm _ _
        omega
      have hdiv : k / (bs * bs) = n := by
        conv_lhs => rw [hksplit]
        rw [Nat.mul_add_div hbs2, Nat.div_eq_of_lt hq, Nat.add_zero]
      have hmod : k % (bs * bs) = k - n * (bs * bs) := by
        conv_lhs => rw [hksplit]
        rw [Nat.mul_add_mod, Nat.mod_eq_of_lt hq]
      have hcond : ¬ (n * (bs * bs) + write_pos bs (k - n * (bs * bs))
          < n * (bs * bs)) := by omega
      rw [if_neg hcond, if_pos (by omega), hdiv, hmod]
    · rename_i hout
      rw [ih]
      by_cases hk : k < n * (bs * bs)
      · rw [if_pos hk, if_pos (by omega)]
      · have hk1 : ¬ k < (n + 1) * (bs * bs) := by
          intro hcon
          exact hout ⟨by omega, by omega⟩
        rw [if_neg hk, if_neg hk1]

end GkoFbcsr

open GkoConfig GkoBatchStop GkoFbcsr

theorem get_value_integer_in_range (lo hi v : Int) (h1 : lo ≤ v)
    (h2 : v ≤ hi) : get_value_integer lo hi (.integer v) = .ok v := by
  have h3 : (v - lo).emod (hi - lo + 1) = v - lo :=
    Int.emod_eq_of_lt (by omega) (by omega)
  have h4 : v - lo + lo = v := by omega
  simp only [get_value_integer]
  rw [h3, h4]

/-- Claim C9: for every value type, `SimpleRelResidual::check_converged`
returns true iff `residual_norms[0] <= rel_tol * rhs_norms[0]`, and
`SimpleAbsResidual::check_converged` returns true iff
`residual_norms[0] <= abs_tol`, entirely independent of the right-hand-side
norms passed to its constructor; both checks are pure functions of the
(immutable) criterion value. -/
theorem claim_C9 :
    (∀ (rel_tol : ℚ) (rhs_norms residual_norms : Nat → ℚ),
      SimpleRelResidual.check_converged ⟨rel_tol, rhs_norms⟩ residual_norms
          = true
        ↔ residual_norms 0 ≤ rel_tol * rhs_norms 0) ∧
    (∀ (tol : ℚ) (rhs_norms residual_norms : Nat → ℚ),
      SimpleAbsResidual.check_converged
          (SimpleAbsResidual.ofArgs tol rhs_norms) residual_norms = true
        ↔ residual_norms 0 ≤ tol) ∧
    (∀ (tol : ℚ) (rhs₁ rhs₂ residual_norms : Nat → ℚ),
      SimpleAbsResidual.check_converged (SimpleAbsResidual.ofArgs tol rhs₁)
          residual_norms
        = SimpleAbsResidual.check_converged
            (SimpleAbsResidual.ofArgs tol rhs₂) residual_norms) := by
  refine ⟨fun a b c => ?_, fun a b c => ?_, fun a b c d => ?_⟩ <;>
    simp [SimpleRelResidual.check_converged,
      SimpleAbsResidual.check_converged, SimpleAbsResidual.ofArgs]

/-- Claim C5: for every scalar leaf holding a numeric value and every
target type among int, long, unsigned, long long, float, double that
represents the value exactly, `get_value` returns the stored value
unchanged (each target type is its own extraction function, so the result
carries exactly the requested type). -/
theorem claim_C5 :
    (∀ v : Int, -(2 ^ 31) ≤ v → v ≤ 2 ^ 31 - 1 →
      get_value_int (.integer v) = .ok v) ∧
    (∀ v : Int, -(2 ^ 63) ≤ v → v ≤ 2 ^ 63 - 1 →
      get_value_long (.integer v) = .ok v) ∧
    (∀ v : Int, 0 ≤ v → v ≤ 2 ^ 32 - 1 →
      get_value_unsigned (.integer v) = .ok v) ∧
    (∀ v : Int, -(2 ^ 63) ≤ v → v ≤ 2 ^ 63 - 1 →
      get_value_long_long (.integer v) = .ok v) ∧
    (∀ r : ℚ, get_value_float (.real r) = .ok r) ∧
    (∀ r : ℚ, get_value_double (.real r) = .ok r) := by
  refine ⟨?_, ?_, ?_, ?_, fun r => rfl, fun r => rfl⟩ <;>
    intro v h1 h2 <;>
    exact get_value_integer_in_range _ _ v h1 h2

theorem claim_C5_witness :
    (-(2 ^ 31) ≤ (123 : Int) ∧ (123 : Int) ≤ 2 ^ 31 - 1) ∧
    get_value_int (.integer 123) = .ok 123 ∧
    get_value_long (.integer 123) = .ok 123 ∧
    get_value_unsigned (.integer 123) = .ok 123 ∧
    get_value_long_long (.integer 123) = .ok 123 :=
  ⟨⟨by norm_num, by norm_num⟩,
   claim_C5.1 123 (by norm_num) (by norm_num),
   claim_C5.2.1 123 (by norm_num) (by norm_num),
   claim_C5.2.2.1 123 (by norm_num) (by norm_num),
   claim_C5.2.2.2.1 123 (by norm_num) (by norm_num)⟩

/-- Claim C6: for complex target types (float and double component types
share the extraction model), a single scalar leaf `x` yields `(x, 0)` and a
two-element array leaf `[a, b]` yields `(a, b)`. -/
theorem claim_C6 :
    (∀ x : ℚ, get_value_complex (.real x) = .ok (x, 0)) ∧
    (∀ a b : ℚ,
      get_value_complex (.array [.real a, .real b]) = .ok (a, b)) :=
  ⟨fun _ => rfl, fun _ _ => rfl⟩

/-- Claim C10: for every block count `nbnz`, the `transpose_blocks` kernel
transposes each of the first `nbnz` blocks of the values array in place
(the entry at row `r`, column `c` of a block ends at row `c`, column `r`),
leaves every entry outside the first `nbnz` blocks unchanged, and applying
the kernel twice restores the original array. -/
theorem claim_C10 {α : Type} (bs nbnz : Nat) (vals : Nat → α)
    (hbs : 0 < bs) :
    (∀ ibz r c, ibz < nbnz → r < bs → c < bs →
      transpose_blocks bs nbnz vals (ibz * (bs * bs) + (c * bs + r))
        = vals (ibz * (bs * bs) + (r * bs + c))) ∧
    (∀ k, nbnz * (bs * bs) ≤ k → transpose_blocks bs nbnz vals k = vals k) ∧
    (∀ k, transpose_blocks bs nbnz (transpose_blocks bs nbnz vals) k
        = vals k) := by
  refine ⟨?_, ?_, ?_⟩
  · intro ibz r c hibz hr hc
    have hq : c * bs + r < bs * bs := by
      calc c * bs + r < c * bs + bs := by omega
        _ = (c + 1) * bs := by ring
        _ ≤ bs * bs := Nat.mul_le_mul_right bs hc
    have hbs2 : 0 < bs * bs := Nat.mul_pos hbs hbs
    have hsplit : ibz * (bs * bs) + (c * bs + r)
        = bs * bs * ibz + (c * bs + r) := by
      rw [Nat.mul_comm ibz (bs * bs)]
    have hdiv : (ibz * (bs * bs) + (c * bs + r)) / (bs * bs) = ibz := by
      rw [hsplit, Nat.mul_add_div hbs2, Nat.div_eq_of_lt hq, Nat.add_zero]
    have hmod : (ibz * (bs * bs) + (c * bs + r)) % (bs * bs)
        = c * bs + r := by
      rw [hsplit, Nat.mul_add_mod, Nat.mod_eq_of_lt hq]
    have hwp : write_pos bs (c * bs + r) = r * bs + c := by
      have hmod2 : (c * bs + r) % bs = r := by
        rw [Nat.mul_comm c bs, Nat.mul_add_mod, Nat.mod_eq_of_lt hr]
      have hdiv2 : (c * bs + r) / bs = c := by
        rw [Nat.mul_comm c bs, Nat.mul_add_div hbs, Nat.div_eq_of_lt hr,
          Nat.add_zero]
      unfold write_pos
      rw [hmod2, hdiv2]
    have hlt : ibz * (bs * bs) + (c * bs + r) < nbnz * (bs * bs) := by
      have hle : (ibz + 1) * (bs * bs) ≤ nbnz * (bs * bs) :=
        Nat.mul_le_mul_right _ hibz
      have heq : (ibz + 1) * (bs * bs) = ibz * (bs * bs) + bs * bs := by
        ring
      omega
    rw [transpose_blocks_eval, if_pos hlt, hdiv, hmod, hwp]
  · intro k hk
    rw [transpose_blocks_eval, if_neg (by omega)]
  · intro k
    by_cases hk : k < nbnz * (bs * bs)
    · have hm : 0 < bs * bs := Nat.mul_pos hbs hbs
      have hkm : k % (bs * bs) < bs * bs := Nat.mod_lt _ hm
      have hwp : write_pos bs (k % (bs * bs)) < bs * bs :=
        write_pos_lt bs _ hkm
      have hdivlt : k / (bs * bs) < nbnz := by
        rw [Nat.div_lt_iff_lt_mul hm]
        exact hk
      have hsplit : k / (bs * bs) * (bs * bs) + write_pos bs (k % (bs * bs))
          = bs * bs * (k / (bs * bs)) + write_pos bs (k % (bs * bs)) := by
        rw [Nat.mul_comm (k / (bs * bs)) (bs * bs)]
      have hdiv2 : (k / (bs * bs) * (bs * bs) + write_pos bs (k % (bs * bs)))
          / (bs * bs) = k / (bs * bs) := by
        rw [hsplit, Nat.mul_add_div hm, Nat.div_eq_of_lt hwp, Nat.add_zero]
      have hmod2 : (k / (bs * bs) * (bs * bs) + write_pos bs (k % (bs * bs)))
          % (bs * bs) = write_pos bs (k % (bs * bs)) := by
        rw [hsplit, Nat.mul_add_mod, Nat.mod_eq_of_lt hwp]
      have hlt2 : k / (bs * bs) * (bs * bs) + write_pos bs (k % (bs * bs))
          < nbnz * (bs * bs) := by
        have hle : (k / (bs * bs) + 1) * (bs * bs) ≤ nbnz * (bs * bs) :=
          Nat.mul_le_mul_right _ hdivlt
        have heq : (k / (bs * bs) + 1) * (bs * bs)
            = k / (bs * bs) * (bs * bs) + bs * bs := by ring
        omega
      rw [transpose_blocks_eval, if_pos hk, transpose_blocks_eval,
        if_pos hlt2, hdiv2, hmod2, write_pos_write_pos bs _ hkm]
      have hrec : k / (bs * bs) * (bs * bs) + k % (bs * bs) = k := by
        have h1 := Nat.div_add_mod k (bs * bs)
        have h2 : bs * bs * (k / (bs * bs)) = k / (bs * bs) * (bs * bs) :=
          Nat.mul_comm _ _
        omega
      rw [hrec]
    · rw [transpose_blocks_eval, if_neg hk, transpose_blocks_eval,
        if_neg hk]

theorem claim_C10_witness :
    (0 : Nat) < 2 ∧
    transpose_blocks 2 1 (fun i => i) 1 = 2 := by
  refine ⟨by decide, ?_⟩
  have h := (claim_C10 2 1 (fun i => i) (by decide)).1 0 1 0
    (by decide) (by decide) (by decide)
  simpa using h

theorem resolve_type_field_of_ok (node : pnode) (key : String)
    (vocab : List String) (inh r : String)
    (h : resolve_type_field node key vocab inh = .ok r) :
    (node.get key = none ∧ r = inh) ∨
    (node.get key = some (.string r) ∧ r ∈ vocab) := by
  unfold resolve_type_field at h
  split at h
  · rename_i s heq
    split at h
    · rename_i hmem
      injection h with h2
      subst h2
      exact Or.inr ⟨heq, hmem⟩
    · cases h
  · cases h
  · rename_i heq
    injection h with h2
    exact Or.inl ⟨heq, h2.symm⟩

theorem update_type_ok_parts (node : pnode) (ptd td : type_descriptor)
    (h : update_type node ptd = .ok td) :
    resolve_type_field node "ValueType" value_type_names ptd.value_type
        = .ok td.value_type ∧
    resolve_type_field node "IndexType" index_type_names ptd.index_type
        = .ok td.index_type := by
  unfold update_type at h
  split at h
  · cases h
  · rename_i vt hv
    split at h
    · cases h
    · rename_i it hi
      injection h with h2
      subst h2
      exact ⟨hv, hi⟩

theorem parse_param_value_preserves {β : Type}
    (parse_fn : kind_info → pnode → registry β → type_descriptor →
      Except PError (ConfigVal × registry β))
    (table : List (String × kind_info))
    (hfn : ∀ kind node (reg reg' : registry β) td c,
      parse_fn kind node reg td = .ok (c, reg') → reg' = reg) :
    ∀ shape sub (reg reg' : registry β) td v,
      parse_param_value parse_fn table shape sub reg td = .ok (v, reg') →
      reg' = reg := by
  intro shape sub reg reg' td v h
  unfold parse_param_value at h
  split at h
  · injection h with h2
    exact (congrArg Prod.snd h2).symm
  · split at h
    · split at h
      · cases h
      · split at h
        · injection h with h2
          exact (congrArg Prod.snd h2).symm
        · cases h
    · split at h
      · cases h
      · exact hfn _ _ _ _ _ _ h
    · cases h

theorem parse_params_preserves {β : Type}
    (parse_fn : kind_info → pnode → registry β → type_descriptor →
      Except PError (ConfigVal × registry β))
    (table : List (String × kind_info))
    (hfn : ∀ kind node (reg reg' : registry β) td c,
      parse_fn kind node reg td = .ok (c, reg') → reg' = reg) :
    ∀ ps node (reg reg' : registry β) td vs,
      parse_params parse_fn table ps node reg td = .ok (vs, reg') →
      reg' = reg := by
  intro ps
  induction ps with
  | nil =>
    intro node reg reg' td vs h
    unfold parse_params at h
    injection h with h2
    exact (congrArg Prod.snd h2).symm
  | cons p rest ih =>
    intro node reg reg' td vs h
    unfold parse_params at h
    split at h
    · split at h
      · cases h
      · exact ih node reg reg' td vs h
    · rename_i sub hsub
      split at h
      · cases h
      · rename_i v₀ reg₂ hpv
        split at h
        · cases h
        · rename_i vs₂ reg₃ hps
          injection h with h2
          have hr3 : reg' = reg₃ := (congrArg Prod.snd h2).symm
          have hr2 : reg₃ = reg₂ := ih node reg₂ reg₃ td vs₂ hps
          have hr1 : reg₂ = reg :=
            parse_param_value_preserves parse_fn table hfn p.shape sub reg
              reg₂ td v₀ hpv
          rw [hr3, hr2, hr1]

theorem parse_preserves {β : Type}
    (app : β → pnode → registry β → type_descriptor →
      Except PError ConfigVal)
    (table : List (String × kind_info)) :
    ∀ (fuel : Nat) (kind : kind_info) (node : pnode)
      (reg reg' : registry β) (ptd : type_descriptor) (c : ConfigVal),
      parse app table fuel kind node reg ptd = .ok (c, reg') →
      reg' = reg := by
  intro fuel
  induction fuel with
  | zero =>
    intro kind node reg reg' ptd c h
    simp [parse] at h
  | succ n ih =>
    intro kind node reg reg' ptd c h
    unfold parse at h
    split at h
    · cases h
    · rename_i td htd
      split at h
      · cases h
      · rename_i tname hname
        split at h
        · rename_i b hb
          split at h
          · split at h
            · cases h
            · rename_i ps reg₂ hps
              injection h with h2
              have hr2 : reg' = reg₂ := (congrArg Prod.snd h2).symm
              have hr1 : reg₂ = reg :=
                parse_params_preserves (parse app table n) table
                  (fun k nd r r' t c0 hh => ih k nd r r' t c0 hh)
                  b.params node reg reg₂ td ps hps
              rw [hr2, hr1]
          · cases h
        · split at h
          · rename_i cb hcb
            split at h
            · cases h
            · injection h with h2
              exact (congrArg Prod.snd h2).symm
          · cases h

/-- Claim C1: for every configuration node whose "Type" string resolves to
a name that is not among the kind's built-in type names but is registered in
the registry's custom-builder namespace, `parse` invokes that custom
builder with the node, the registry, and the effective type descriptor, and
uses the builder's returned configuration directly as the result,
performing no built-in parameter parsing on the node. -/
theorem claim_C1 {β : Type}
    (app : β → pnode → registry β → type_descriptor →
      Except PError ConfigVal)
    (table : List (String × kind_info)) (fuel : Nat) (kind : kind_info)
    (node : pnode) (reg : registry β) (ptd td : type_descriptor)
    (tname : String) (cb : β)
    (htd : update_type node ptd = .ok td)
    (hname : choose_type_name kind node = .ok tname)
    (hnotb : find_builtin kind.builtins tname = none)
    (hcb : assoc_lookup reg.builders tname = some cb) :
    parse app table (fuel + 1) kind node reg ptd
      = match app cb node reg td with
        | .error e => .error e
        | .ok c => .ok (c, reg) := by
  unfold parse
  simp only [htd, hname, hnotb, hcb]

theorem claim_C1_witness :
    update_type custom_node ⟨"double", "void"⟩ = .ok ⟨"double", "void"⟩ ∧
    choose_type_name linop_kind custom_node = .ok "Custom" ∧
    find_builtin linop_kind.builtins "Custom" = none ∧
    assoc_lookup custom_reg.builders "Custom" = some () ∧
    parse sample_app sample_table 1 linop_kind custom_node custom_reg
        ⟨"double", "void"⟩ = .ok (custom_result, custom_reg) :=
  ⟨rfl, rfl, rfl, rfl,
   claim_C1 sample_app sample_table 0 linop_kind custom_node custom_reg
     ⟨"double", "void"⟩ ⟨"double", "void"⟩ "Custom" () rfl rfl rfl rfl⟩

/-- Claim C2: the effective type descriptor of a node takes the node's
"ValueType" (resp. "IndexType") string field when present and otherwise
inherits the parent descriptor's corresponding field; a built-in object
parsed from a node carries exactly that resolved descriptor; concretely,
parent descriptor ("float", "void") with no node-level "ValueType" yields
value type "float", while a node-level "ValueType" of "double" yields
"double" regardless of the parent. -/
theorem claim_C2 :
    (∀ (node : pnode) (ptd td : type_descriptor),
      update_type node ptd = .ok td → node.get "ValueType" = none →
      td.value_type = ptd.value_type) ∧
    (∀ (node : pnode) (ptd td : type_descriptor) (s : String),
      update_type node ptd = .ok td →
      node.get "ValueType" = some (.string s) → td.value_type = s) ∧
    (∀ (node : pnode) (ptd td : type_descriptor),
      update_type node ptd = .ok td → node.get "IndexType" = none →
      td.index_type = ptd.index_type) ∧
    (∀ (node : pnode) (ptd td : type_descriptor) (s : String),
      update_type node ptd = .ok td →
      node.get "IndexType" = some (.string s) → td.index_type = s) ∧
    (∀ (β : Type)
       (app : β → pnode → registry β → type_descriptor →
         Except PError ConfigVal)
       (table : List (String × kind_info)) (fuel : Nat) (kind : kind_info)
       (node : pnode) (reg reg' : registry β) (ptd td : type_descriptor)
       (t : String) (ps : List (String × ConfigVal)) (tname : String)
       (b : builtin_entry),
      choose_type_name kind node = .ok tname →
      find_builtin kind.builtins tname = some b →
      parse app table (fuel + 1) kind node reg ptd
        = .ok (.obj t td ps, reg') →
      update_type node ptd = .ok td) ∧
    (parse sample_app sample_table 2 cg_kind data_node data_reg
        ⟨"float", "void"⟩ = .ok (data_result, data_reg)) ∧
    (parse sample_app sample_table 2 cg_kind nodefault_node empty_reg
        ⟨"float", "void"⟩ = .ok (nodefault_result, empty_reg)) := by
  refine ⟨?_, ?_, ?_, ?_, ?_, rfl, rfl⟩
  · intro node ptd td h hv
    have hp := (update_type_ok_parts node ptd td h).1
    rcases resolve_type_field_of_ok _ _ _ _ _ hp with ⟨-, he⟩ | ⟨hg, -⟩
    · exact he
    · rw [hv] at hg
      cases hg
  · intro node ptd td s h hv
    have hp := (update_type_ok_parts node ptd td h).1
    rcases resolve_type_field_of_ok _ _ _ _ _ hp with ⟨hg, -⟩ | ⟨hg, -⟩
    · rw [hv] at hg
      cases hg
    · rw [hv] at hg
      injection hg with hg2
      injection hg2 with hg3
      exact hg3.symm
  · intro node ptd td h hv
    have hp := (update_type_ok_parts node ptd td h).2
    rcases resolve_type_field_of_ok _ _ _ _ _ hp with ⟨-, he⟩ | ⟨hg, -⟩
    · exact he
    · rw [hv] at hg
      cases hg
  · intro node ptd td s h hv
    have hp := (update_type_ok_parts node ptd td h).2
    rcases resolve_type_field_of_ok _ _ _ _ _ hp with ⟨hg, -⟩ | ⟨hg, -⟩
    · rw [hv] at hg
      cases hg
    · rw [hv] at hg
      injection hg with hg2
      injection hg2 with hg3
      exact hg3.symm
  · intro β app table fuel kind node reg reg' ptd td t ps tname b hname hb h
    unfold parse at h
    split at h
    · cases h
    · rename_i td₀ htd
      simp only [hname, hb] at h
      split at h
      · split at h
        · cases h
        · rename_i ps₀ reg₂ hps
          injection h with h2
          have hc := congrArg Prod.fst h2
          injection hc with hb1 hb2 hb3
          rw [← hb2]
          exact htd
      · cases h

theorem claim_C2_witness :
    (update_type data_node ⟨"float", "void"⟩ = .ok ⟨"float", "void"⟩ ∧
     pnode.get data_node "ValueType" = none ∧
     (type_descriptor.mk "float" "void").value_type = "float") ∧
    (update_type nodefault_node ⟨"float", "void"⟩
        = .ok ⟨"double", "void"⟩ ∧
     pnode.get nodefault_node "ValueType" = some (.string "double") ∧
     (type_descriptor.mk "double" "void").value_type = "double") :=
  ⟨⟨rfl, rfl,
    claim_C2.1 data_node ⟨"float", "void"⟩ ⟨"float", "void"⟩ rfl rfl⟩,
   ⟨rfl, rfl,
    claim_C2.2.1 nodefault_node ⟨"float", "void"⟩ ⟨"double", "void"⟩
      "double" rfl rfl⟩⟩

/-- Claim C3: a nested-object parameter whose field value is a string is
resolved as a name in the registry's constructed-object namespace instead
of recursing: the resulting parameter is exactly the registered object when
its erased type matches, an absent name fails with `NotFoundError`, and a
registered object of a different erased type fails with
`TypeMismatchError`; end-to-end, the built `solver::Cg` configuration's
`generated_preconditioner` entry is the object registered under
"precond". -/
theorem claim_C3 {β : Type}
    (parse_fn : kind_info → pnode → registry β → type_descriptor →
      Except PError (ConfigVal × registry β))
    (table : List (String × kind_info)) (ck expected name : String)
    (reg : registry β) (td : type_descriptor) :
    (assoc_lookup reg.objects name = none →
      parse_param_value parse_fn table (.nested_obj ck expected)
          (.string name) reg td = .error .NotFoundError) ∧
    (∀ o : robject, assoc_lookup reg.objects name = some o →
      o.concrete_type ≠ expected →
      parse_param_value parse_fn table (.nested_obj ck expected)
          (.string name) reg td = .error .TypeMismatchError) ∧
    (∀ o : robject, assoc_lookup reg.objects name = some o →
      o.concrete_type = expected →
      parse_param_value parse_fn table (.nested_obj ck expected)
          (.string name) reg td = .ok (.ref o, reg)) ∧
    (parse sample_app sample_table 2 cg_kind data_node data_reg
        ⟨"float", "void"⟩ = .ok (data_result, data_reg)) ∧
    (parse sample_app sample_table 2 cg_kind data_node empty_reg
        ⟨"float", "void"⟩ = .error .NotFoundError) ∧
    (parse sample_app sample_table 2 cg_kind data_node wrong_reg
        ⟨"float", "void"⟩ = .error .TypeMismatchError) := by
  refine ⟨?_, ?_, ?_, rfl, rfl, rfl⟩
  · intro h
    simp only [parse_param_value, h]
  · intro o ho hne
    simp only [parse_param_value, ho, if_neg hne]
  · intro o ho he
    simp only [parse_param_value, ho, if_pos he]

theorem claim_C3_witness :
    assoc_lookup data_reg.objects "precond" = some ⟨"LinOp", 0⟩ ∧
    parse_param_value (parse sample_app sample_table 1) sample_table
        (.nested_obj "linop" "LinOp") (.string "precond") data_reg
        ⟨"float", "void"⟩ = .ok (.ref ⟨"LinOp", 0⟩, data_reg) ∧
    assoc_lookup empty_reg.objects "precond" = none ∧
    parse_param_value (parse sample_app sample_table 1) sample_table
        (.nested_obj "linop" "LinOp") (.string "precond") empty_reg
        ⟨"float", "void"⟩ = .error .NotFoundError :=
  ⟨rfl,
   (claim_C3 (parse sample_app sample_table 1) sample_table "linop" "LinOp"
     "precond" data_reg ⟨"float", "void"⟩).2.2.1 ⟨"LinOp", 0⟩ rfl rfl,
   rfl,
   (claim_C3 (parse sample_app sample_table 1) sample_table "linop" "LinOp"
     "precond" empty_reg ⟨"float", "void"⟩).1 rfl⟩

/-- Claim C4: when the requested kind tag denotes a single fixed concrete
type, `parse` needs no "Type" field and uses that concrete type directly
(the `solver::Cg` parse of a node without "Type" succeeds); when the kind is
abstract, a node lacking a "Type" string field fails with
`MissingFieldError`. -/
theorem claim_C4 :
    (∀ (kind : kind_info) (node : pnode) (n : String),
      kind.fixed = some n → choose_type_name kind node = .ok n) ∧
    (∀ (kind : kind_info) (node : pnode),
      kind.fixed = none → node.get "Type" = none →
      choose_type_name kind node = .error .MissingFieldError) ∧
    (∀ (β : Type)
       (app : β → pnode → registry β → type_descriptor →
         Except PError ConfigVal)
       (table : List (String × kind_info)) (fuel : Nat) (kind : kind_info)
       (node : pnode) (reg : registry β) (ptd td : type_descriptor),
      kind.fixed = none → node.get "Type" = none →
      update_type node ptd = .ok td →
      parse app table (fuel + 1) kind node reg ptd
        = .error .MissingFieldError) ∧
    (cg_kind.fixed = some "solver::Cg") ∧
    (pnode.get nodefault_node "Type" = none) ∧
    (parse sample_app sample_table 2 cg_kind nodefault_node empty_reg
        ⟨"float", "void"⟩ = .ok (nodefault_result, empty_reg)) := by
  refine ⟨?_, ?_, ?_, rfl, rfl, rfl⟩
  · intro kind node n h
    simp only [choose_type_name, h]
  · intro kind node hf ht
    simp only [choose_type_name, hf, ht]
  · intro β app table fuel kind node reg ptd td hf ht htd
    unfold parse
    simp only [htd, choose_type_name, hf, ht]

theorem claim_C4_witness :
    stop_kind.fixed = none ∧
    pnode.get (pnode.map []) "Type" = none ∧
    update_type (pnode.map []) ⟨"double", "void"⟩
      = .ok ⟨"double", "void"⟩ ∧
    choose_type_name cg_kind (pnode.map []) = .ok "solver::Cg" ∧
    choose_type_name stop_kind (pnode.map [])
      = .error .MissingFieldError ∧
    parse sample_app sample_table 1 stop_kind (pnode.map []) empty_reg
        ⟨"double", "void"⟩ = .error .MissingFieldError :=
  ⟨rfl, rfl, rfl,
   claim_C4.1 cg_kind (pnode.map []) "solver::Cg" rfl,
   claim_C4.2.1 stop_kind (pnode.map []) rfl rfl,
   claim_C4.2.2.1 Unit sample_app sample_table 0 stop_kind (pnode.map [])
     empty_reg ⟨"double", "void"⟩ ⟨"double", "void"⟩ rfl rfl rfl⟩

/-- Claim C7: parsing is deterministic and side-effect-free on its inputs:
a successful parse returns the registry it was given unchanged (the
registry is threaded through every recursive step and never written), and
two parse calls with equal node, registry and type-descriptor inputs
produce equal results. -/
theorem claim_C7 {β : Type}
    (app : β → pnode → registry β → type_descriptor →
      Except PError ConfigVal)
    (table : List (String × kind_info)) :
    (∀ (fuel : Nat) (kind : kind_info) (node : pnode)
        (reg reg' : registry β) (ptd : type_descriptor) (c : ConfigVal),
      parse app table fuel kind node reg ptd = .ok (c, reg') →
      reg' = reg) ∧
    (∀ (fuel : Nat) (kind : kind_info) (node₁ node₂ : pnode)
        (reg₁ reg₂ : registry β) (ptd₁ ptd₂ : type_descriptor),
      node₁ = node₂ → reg₁ = reg₂ → ptd₁ = ptd₂ →
      parse app table fuel kind node₁ reg₁ ptd₁
        = parse app table fuel kind node₂ reg₂ ptd₂) :=
  ⟨fun fuel kind node reg reg' ptd c h =>
    parse_preserves app table fuel kind node reg reg' ptd c h,
   fun fuel kind node₁ node₂ reg₁ reg₂ ptd₁ ptd₂ h1 h2 h3 => by
    rw [h1, h2, h3]⟩

theorem claim_C7_witness :
    parse sample_app sample_table 2 cg_kind data_node data_reg
        ⟨"float", "void"⟩ = .ok (data_result, data_reg) ∧
    data_reg = data_reg :=
  ⟨rfl,
   (claim_C7 sample_app sample_table).1 2 cg_kind data_node data_reg
     data_reg ⟨"float", "void"⟩ data_result rfl⟩

/-- Claim C8: the index-type name "void" is a valid type-descriptor entry:
it belongs to the index-type vocabulary, descriptor resolution under a
("float", "void") parent succeeds without `UnknownTypeError`, and parses
carrying a "void" index type succeed, as in the tests that pass
("float", "void") and ("double", "void") descriptors. -/
theorem claim_C8 :
    "void" ∈ index_type_names ∧
    update_type data_node ⟨"float", "void"⟩ = .ok ⟨"float", "void"⟩ ∧
    parse sample_app sample_table 1 stop_kind stop_config empty_reg
        ⟨"float", "void"⟩
      = .ok (stop_result ⟨"float", "void"⟩, empty_reg) ∧
    parse sample_app sample_table 1 linop_kind custom_node custom_reg
        ⟨"double", "void"⟩ = .ok (custom_result, custom_reg) :=
  ⟨by simp [index_type_names], rfl, rfl, rfl⟩
